import Mathlib

/-!
# Verification of the TTS orchestration core

Shallow embedding of the text-to-speech managers of this repository:

* `src/src/scripts/tts-manager.js` (`UniversalTTSManager`): word-callback
  speech sessions, word-timing simulation, pause/resume/stop state machine.
* `src/public/SimpleTtsManager.js` (`SimpleTtsManager`, two revisions in the
  file): parameter clamping and voice-selection precedence.
* `src/public/UniversalTtsManager.js` (`UniversalTtsManager`): provider
  initialization and best-provider selection.
* `src/src/components/TtsManagerFixed.js` (`TtsManagerFixed`): sequential
  provider probing with first-success selection and platform guidance.

JavaScript numbers that matter here are modelled as `Option JNum` where
`JNum` is either `nan` or a rational: `none` is JavaScript `undefined`,
`JNum.nan` is `NaN`.  The JavaScript idiom `x || d` (used for option
defaults) yields `d` exactly when `x` is falsy, i.e. `undefined`, `NaN`
or `0`.
-/

set_option autoImplicit false

namespace Tts

/-- A JavaScript number: either `NaN` or an actual (rational) value.
Speech parameters never involve infinities in this code base. -/
inductive JNum where
  | nan : JNum
  | num : ℚ → JNum
deriving DecidableEq, Repr

/-- A possibly-absent JavaScript numeric option field
(`none` = `undefined`). -/
abbrev JVal := Option JNum

/-- The JavaScript expression `x || d` for a numeric option `x` with
default `d`: falsy values (`undefined`, `NaN`, `0`) give `d`. -/
def jsOr (x : JVal) (d : ℚ) : ℚ :=
  match x with
  | none => d
  | some JNum.nan => d
  | some (JNum.num q) => if q = 0 then d else q

/-- Model of `Math.max(lo, Math.min(hi, x))` on non-`NaN` inputs. -/
def jsClamp (lo hi x : ℚ) : ℚ := max lo (min hi x)

/-! ## Speech parameter assignment

`SimpleTtsManager.speak` (src/public/SimpleTtsManager.js lines 121-123):

    this.currentUtterance.rate = Math.max(0.1, Math.min(10, options.rate || 1.0));
    this.currentUtterance.pitch = Math.max(0, Math.min(2, options.pitch || 1.0));
    this.currentUtterance.volume = Math.max(0, Math.min(1, options.volume || 1.0));

`UniversalTTSManager.speakWithWordCallback`
(src/src/scripts/tts-manager.js lines 225-227):

    utterance.rate = options.rate || 0.9;
    utterance.pitch = options.pitch || 1.0;
    utterance.volume = options.volume || 0.85;
-/

/-- Rate assigned by `SimpleTtsManager.speak`. -/
def simpleUttRate (rate : JVal) : ℚ := jsClamp (1/10) 10 (jsOr rate 1)

/-- Pitch assigned by `SimpleTtsManager.speak`. -/
def simpleUttPitch (pitch : JVal) : ℚ := jsClamp 0 2 (jsOr pitch 1)

/-- Volume assigned by `SimpleTtsManager.speak`. -/
def simpleUttVolume (volume : JVal) : ℚ := jsClamp 0 1 (jsOr volume 1)

/-- Rate assigned by `UniversalTTSManager.speakWithWordCallback`
(no clamping in the source). -/
def ttsUttRate (rate : JVal) : ℚ := jsOr rate (9/10)

/-- Pitch assigned by `UniversalTTSManager.speakWithWordCallback`. -/
def ttsUttPitch (pitch : JVal) : ℚ := jsOr pitch 1

/-- Volume assigned by `UniversalTTSManager.speakWithWordCallback`. -/
def ttsUttVolume (volume : JVal) : ℚ := jsOr volume (85/100)

/-! ## Voices and the quality rankers -/

/-- The character list `b` starts with the character list `a`. -/
def startsWithChars : List Char → List Char → Bool
  | [], _ => true
  | _ :: _, [] => false
  | a :: as, b :: bs => a == b && startsWithChars as bs

/-- Contiguous containment of `sub` in `l` (character lists). -/
def containsChars (sub : List Char) : List Char → Bool
  | [] => startsWithChars sub []
  | b :: bs => startsWithChars sub (b :: bs) || containsChars sub bs

/-- The JavaScript `s.includes(sub)` on strings. -/
def jsIncludes (s sub : String) : Bool := containsChars sub.toList s.toList

/-- The JavaScript `s.toLowerCase()` (character-wise, which covers every
string this code compares). -/
def jsToLower (s : String) : String := String.mk (s.toList.map Char.toLower)

/-- The JavaScript `s.startsWith(p)`. -/
def jsStartsWith (s p : String) : Bool := startsWithChars p.toList s.toList

/-- The JavaScript `s.trim()`: strip leading and trailing whitespace. -/
def jsTrim (s : String) : String :=
  String.mk (((s.toList.dropWhile Char.isWhitespace).reverse.dropWhile
    Char.isWhitespace).reverse)

/-- Split a character list at every occurrence of `sep` (the pieces). -/
def splitChars (sep : Char) : List Char → List (List Char)
  | [] => [[]]
  | c :: cs =>
    match splitChars sep cs with
    | [] => [[c]]
    | w :: ws => if c == sep then [] :: w :: ws else (c :: w) :: ws

/-- The JavaScript `s.split(sep)` for a single-character separator, as in
`text.split(' ')`: empty pieces are kept, and the empty string yields
`[""]`. -/
def jsSplit (s : String) (sep : Char) : List String :=
  (splitChars sep s.toList).map String.mk

/-- A host speech-synthesis voice, as consumed by the rankers:
`{name, lang, default, localService}`. -/
structure Voice where
  name : String
  lang : String
  voiceDefault : Bool
  localService : Bool
deriving DecidableEq, Repr

/-- The platforms distinguished by `detectPlatform()` in both managers
(derived from user-agent/platform strings of the host). -/
inductive Platform where
  | mac | windows | android | ios | linux | unknown
deriving DecidableEq, Repr

/-- The `qualityRanking` table of `UniversalTTSManager.getBestVoice`
(src/src/scripts/tts-manager.js lines 111-120), in insertion order. -/
def qualityRanking : List (String × Int) :=
  [("Alex", 100), ("Samantha", 95), ("Victoria", 90), ("Allison", 85), ("Ava", 80),
   ("Zira", 85), ("David", 80), ("Mark", 75), ("Hazel", 70), ("Aria", 65),
   ("Google US English", 90), ("Google UK English", 85),
   ("Microsoft", 60), ("eSpeak", 30)]

/-- First matching table entry bonus: the `for ... break` loop of
`calculateVoiceScore` adds the points of the first table name contained
in the voice name. -/
def rankingBonus (voiceName : String) : List (String × Int) → Int
  | [] => 0
  | (n, points) :: rest =>
    if jsIncludes voiceName (jsToLower n) then points else rankingBonus voiceName rest

/-- Model of `UniversalTTSManager.calculateVoiceScore(voice, qualityRanking)`
(src/src/scripts/tts-manager.js lines 130-172). -/
def calculateVoiceScore (platform : Platform) (voice : Voice) : Int :=
  let voiceName := jsToLower voice.name
  let score : Int := rankingBonus voiceName qualityRanking
  let score := score +
    (match platform with
     | .mac => if jsIncludes voiceName "alex" || jsIncludes voiceName "samantha" then 20 else 0
     | .windows => if jsIncludes voiceName "zira" || jsIncludes voiceName "david" then 15 else 0
     | .android => if jsIncludes voiceName "google" then 15 else 0
     | _ => 0)
  let score := score + (if jsIncludes voiceName "neural" then 25 else 0)
  let score := score + (if jsIncludes voiceName "premium" then 20 else 0)
  let score := score + (if jsIncludes voiceName "enhanced" then 15 else 0)
  let score := score + (if jsIncludes voiceName "natural" then 10 else 0)
  let score := score + (if jsStartsWith voice.lang "en-US" then 10 else 0)
  let score := score + (if jsStartsWith voice.lang "en-GB" then 8 else 0)
  let score := score + (if jsStartsWith voice.lang "en" then 5 else 0)
  let score := score + (if voice.voiceDefault then 5 else 0)
  let score := score + (if voice.localService then 3 else 0)
  let score := score -
    (if jsIncludes voiceName "robot" || jsIncludes voiceName "synthetic" then 20 else 0)
  let score := score - (if jsIncludes voiceName "espeak" then 15 else 0)
  score

/-- Model of `UniversalTTSManager.getBestVoice()` (src/src/scripts/tts-manager.js
lines 107-128): voices are scored, sorted descending by score (JavaScript
`sort` is stable) and the head taken; the head of a stable descending sort
is the first voice of maximal score, computed here by a fold that replaces
the candidate only on a strictly greater score. -/
def getBestVoice (platform : Platform) (voices : List Voice) : Option Voice :=
  match voices with
  | [] => none
  | v :: rest =>
    some (rest.foldl
      (fun best w =>
        if calculateVoiceScore platform w > calculateVoiceScore platform best then w else best)
      v)

/-- The voice set on the utterance by
`UniversalTTSManager.speakWithWordCallback` (src/src/scripts/tts-manager.js
lines 219-223): always `getBestVoice()`; the caller's `options.voice` is
never consulted (the `options` parameter carries it, unused, to mirror the
source signature). -/
def ttsUtteranceVoice (platform : Platform) (voices : List Voice)
    (_optionsVoice : Option Voice) : Option Voice :=
  getBestVoice platform voices

/-- Model of `SimpleTtsManager.calculateVoiceQuality(voice)`
(src/public/SimpleTtsManager.js lines 383-438, second revision in the
file); all matching bonuses accumulate. -/
def calculateVoiceQuality (platform : Platform) (voice : Voice) : Int :=
  let voiceName := jsToLower voice.name
  let score : Int := 0
  let score := score +
    (match platform with
     | .mac =>
       (if jsIncludes voiceName "alex" then 120 else 0) +
       (if jsIncludes voiceName "samantha" then 115 else 0) +
       (if jsIncludes voiceName "victoria" then 110 else 0) +
       (if jsIncludes voiceName "allison" then 105 else 0) +
       (if jsIncludes voiceName "ava" then 100 else 0) +
       (if jsIncludes voiceName "tom" then 95 else 0) +
       (if jsIncludes voiceName "susan" then 90 else 0)
     | .windows =>
       (if jsIncludes voiceName "zira" then 110 else 0) +
       (if jsIncludes voiceName "david" then 105 else 0) +
       (if jsIncludes voiceName "mark" then 100 else 0) +
       (if jsIncludes voiceName "hazel" then 95 else 0) +
       (if jsIncludes voiceName "aria" then 90 else 0)
     | .android =>
       (if jsIncludes voiceName "google" then 100 else 0) +
       (if jsIncludes voiceName "female" || jsIncludes voiceName "male" then 80 else 0)
     | _ => 0)
  let score := score + (if jsIncludes voiceName "neural" then 100 else 0)
  let score := score + (if jsIncludes voiceName "premium" then 90 else 0)
  let score := score + (if jsIncludes voiceName "enhanced" then 80 else 0)
  let score := score + (if jsIncludes voiceName "natural" then 70 else 0)
  let score := score + (if jsIncludes voiceName "high quality" then 65 else 0)
  let score := score + (if jsIncludes voiceName "google" then 60 else 0)
  let score := score + (if jsIncludes voiceName "microsoft" then 50 else 0)
  let score := score + (if jsIncludes voiceName "amazon" then 40 else 0)
  let score := score + (if jsIncludes voiceName "apple" then 55 else 0)
  let score := score + (if jsStartsWith voice.lang "en-US" then 35 else 0)
  let score := score + (if jsStartsWith voice.lang "en-GB" then 30 else 0)
  let score := score + (if jsStartsWith voice.lang "en" then 25 else 0)
  let score := score + (if voice.voiceDefault then 20 else 0)
  let score := score + (if voice.localService then 10 else 0)
  let score := score -
    (if jsIncludes voiceName "robot" || jsIncludes voiceName "synthetic" then 50 else 0)
  let score := score - (if jsIncludes voiceName "espeak" then 30 else 0)
  score

/-- Model of `SimpleTtsManager.getBestVoices()` (src/public/SimpleTtsManager.js
lines 366-381): empty input short-circuits to `[]`; otherwise voices are
paired with their quality score, stably sorted descending by score
(JavaScript comparator `(a, b) => b.score - a.score`), and unwrapped. -/
def getBestVoices (platform : Platform) (voices : List Voice) : List Voice :=
  if voices.length = 0 then []
  else
    ((voices.map (fun v => (v, calculateVoiceQuality platform v))).mergeSort
      (fun a b => decide (a.2 ≥ b.2))).map (·.1)

/-- The fallback branch of `SimpleTtsManager.speak`'s voice selection
(src/public/SimpleTtsManager.js lines 586-592):
`availableVoices.find(v => v.default || v.lang.startsWith('en')) || availableVoices[0]`. -/
def simpleFallbackVoice (availableVoices : List Voice) : Option Voice :=
  match availableVoices with
  | [] => none
  | v0 :: _ =>
    some ((availableVoices.find? (fun v => v.voiceDefault || jsStartsWith v.lang "en")).getD v0)

/-- The automatic branch of `SimpleTtsManager.speak`'s voice selection:
head of `getBestVoices()` when non-empty, else the fallback over
`availableVoices` when that is non-empty, else no voice at all. -/
def simpleAutoVoice (platform : Platform) (availableVoices : List Voice) : Option Voice :=
  match getBestVoices platform availableVoices with
  | b :: _ => some b
  | [] =>
    if availableVoices.length > 0 then simpleFallbackVoice availableVoices
    else none

/-- The voice set on the utterance by `SimpleTtsManager.speak`
(src/public/SimpleTtsManager.js lines 577-593): caller-supplied voice if
present in `availableVoices` (`options.voice && availableVoices.includes(options.voice)`),
else the automatic branch `simpleAutoVoice`. -/
def simpleSpeakVoice (platform : Platform) (availableVoices : List Voice)
    (optionsVoice : Option Voice) : Option Voice :=
  match optionsVoice with
  | some v =>
    if availableVoices.contains v then some v
    else simpleAutoVoice platform availableVoices
  | none => simpleAutoVoice platform availableVoices

/-! ## Voice inventory loading

`loadVoices()` (src/src/scripts/tts-manager.js lines 72-105 and the
identical src/public/SimpleTtsManager.js lines 64-103) retries
`speechSynthesis.getVoices()` with a shared `attempts` counter capped at
`maxAttempts = 50`, scheduling each retry with `setTimeout(..., 100)`.
The host is modelled as a function `env : Nat → List Voice` giving the
snapshot the `n`-th attempt observes (attempts are numbered from 1; the
`voiceschanged` listener merely runs extra attempts of the same loop and
the promise resolves at most once, so the sequential model below covers
every resolution). -/

/-- The `maxAttempts` cap in `loadVoices` (both managers). -/
def maxAttempts : Nat := 50

/-- The retry delay in milliseconds: `setTimeout(loadVoicesAttempt, 100)`. -/
def voiceRetryDelayMs : Nat := 100

/-- One run of the `loadVoicesAttempt` loop starting after `attempts`
previous failed attempts; returns (attempt number at resolution, the
voice list the promise leaves in `availableVoices`). -/
def loadVoicesGo (env : Nat → List Voice) (attempts : Nat) : Nat × List Voice :=
  let a := attempts + 1
  let voices := env a
  if voices.length > 0 then (a, voices)
  else if a ≥ maxAttempts then (a, voices)
  else loadVoicesGo env a
termination_by maxAttempts - attempts
decreasing_by simp only [not_le] at *; omega

/-- Model of `loadVoices()`: the retry loop started with zero prior attempts. -/
def loadVoices (env : Nat → List Voice) : Nat × List Voice :=
  loadVoicesGo env 0

/-- A host on which the third voice snapshot is the first non-empty one
(used to exercise `loadVoices` on a concrete input). -/
def envThirdAttempt : Nat → List Voice :=
  fun k => if k = 3 then [⟨"Default", "en-US", true, true⟩] else []

/-- The guard clauses of `SimpleTtsManager.speak`
(src/public/SimpleTtsManager.js lines 109-118): returns the message of
the error thrown before any state is touched, if any. -/
def simpleSpeakGuard (isInitialized : Bool) (text : String) : Option String :=
  if !isInitialized then some "TTS not initialized"
  else if text = "" || jsTrim text = "" then some "No text provided for speech"
  else none

/-! ## The `UniversalTTSManager` speech-session state machine

src/src/scripts/tts-manager.js.  Mutable fields of the manager that the
claims observe, plus a model of the host engine's utterance queue
(`speechSynthesis.speak` appends, `speechSynthesis.cancel` empties,
a finished or errored utterance is dequeued) and a log of the callbacks
fired (`onStatusChange`, `onWordStart`, `onEnd`). -/

/-- An observable callback invocation. -/
inductive TtsEvent where
  | statusChange (isPlaying isPaused : Bool)
  | wordStart (word : String) (index : Nat)
  | ended
deriving DecidableEq, Repr

/-- Manager state (fields of `UniversalTTSManager`) together with the
engine queue and the callback log. -/
structure TtsState where
  isInitialized : Bool
  isPlaying : Bool
  isPaused : Bool
  /-- whether a `setInterval` word timer is pending (`this.wordTimer`). -/
  wordTimer : Bool
  /-- whether `this.onWordStart` is set (a word callback was supplied). -/
  hasWordCallback : Bool
  currentWords : List String
  currentWordIndex : Nat
  currentUtterance : Option String
  /-- texts queued in the host speech engine, oldest first. -/
  engineQueue : List String
  /-- callbacks fired so far, oldest first. -/
  callbackLog : List TtsEvent
deriving DecidableEq, Repr

/-- The freshly constructed manager (constructor, lines 6-24). -/
def initialState : TtsState :=
  { isInitialized := false, isPlaying := false, isPaused := false,
    wordTimer := false, hasWordCallback := false,
    currentWords := [], currentWordIndex := 0,
    currentUtterance := none, engineQueue := [], callbackLog := [] }

/-- Model of `UniversalTTSManager.stop()` (lines 304-317). -/
def stopStep (s : TtsState) : TtsState :=
  if s.isPlaying then
    { s with engineQueue := [],  -- speechSynthesis.cancel()
             isPlaying := false, isPaused := false,
             currentWordIndex := 0, wordTimer := false,
             currentUtterance := none,
             callbackLog := s.callbackLog ++ [.statusChange false false] }
  else s

/-- Model of `UniversalTTSManager.pause()` (lines 284-294). -/
def pauseStep (s : TtsState) : TtsState :=
  if s.isPlaying && !s.isPaused then
    { s with isPaused := true, wordTimer := false,
             callbackLog := s.callbackLog ++ [.statusChange true true] }
  else s

/-- Model of `UniversalTTSManager.resume()` (lines 296-302). -/
def resumeStep (s : TtsState) : TtsState :=
  if s.isPaused then
    { s with isPaused := false,
             callbackLog := s.callbackLog ++ [.statusChange true false] }
  else s

/-- Model of `utterance.onstart` (lines 234-250): flags set, status change fired,
word timer started. -/
def onstartStep (s : TtsState) : TtsState :=
  { s with isPlaying := true, isPaused := false, wordTimer := true,
           callbackLog := s.callbackLog ++ [.statusChange true false] }

/-- Model of `utterance.onend` (lines 252-262); the engine dequeues the finished
utterance. -/
def onendStep (s : TtsState) : TtsState :=
  { s with isPlaying := false, isPaused := false, currentWordIndex := 0,
           wordTimer := false, engineQueue := s.engineQueue.drop 1,
           callbackLog := s.callbackLog ++ [.statusChange false false, .ended] }

/-- Model of `utterance.onerror` (lines 264-273); the engine drops the errored
utterance. -/
def onerrorStep (s : TtsState) : TtsState :=
  { s with isPlaying := false, isPaused := false,
           wordTimer := false, engineQueue := s.engineQueue.drop 1,
           callbackLog := s.callbackLog ++ [.statusChange false false] }

/-- One firing of the `setInterval` word timer (lines 240-247): while the
index is in range and a word callback exists, emit `onWordStart(word, i)`
and advance; otherwise clear the interval. -/
def tickStep (s : TtsState) : TtsState :=
  if s.wordTimer then
    if s.currentWordIndex < s.currentWords.length && s.hasWordCallback then
      { s with callbackLog := s.callbackLog ++
                 [.wordStart (s.currentWords.getD s.currentWordIndex "") s.currentWordIndex],
               currentWordIndex := s.currentWordIndex + 1 }
    else { s with wordTimer := false }
  else s

/-- Model of `UniversalTTSManager.speakWithWordCallback(text, onWordStart, options)`
(lines 203-277) up to the point where the utterance is queued: the two
guard throws, the implicit `stop()`, the word-list setup, and
`speechSynthesis.speak(utterance)`.  Voice and rate/pitch/volume
assignment are modelled separately (`ttsUtteranceVoice`, `ttsUttRate`,
`ttsUttPitch`, `ttsUttVolume`).  Returns the new state and the thrown
error message, if any. -/
def speakStep (s : TtsState) (text : String) (hasCb : Bool) :
    TtsState × Option String :=
  if !s.isInitialized then (s, some "TTS not initialized")
  else if text = "" || jsTrim text = "" then (s, some "No text provided for speech")
  else
    let s1 := stopStep s
    ({ s1 with currentWords := jsSplit text ' ',
               currentWordIndex := 0,
               hasWordCallback := hasCb,
               currentUtterance := some text,
               engineQueue := s1.engineQueue ++ [text] }, none)

/-- The interactions driving the manager: public API calls, host engine
callbacks, and word-timer firings. -/
inductive Act where
  /-- successful completion of `initialize()` (lines 26-50), which sets
  `this.isInitialized = true`. -/
  | initDone
  | speak (text : String) (hasCb : Bool)
  | pause
  | resume
  | stop
  | onstart
  | onend
  | onerror
  | tick
deriving DecidableEq, Repr

/-- One step; speak may throw (second component). -/
def stepAct (s : TtsState) : Act → TtsState × Option String
  | .initDone => ({ s with isInitialized := true }, none)
  | .speak text hasCb => speakStep s text hasCb
  | .pause => (pauseStep s, none)
  | .resume => (resumeStep s, none)
  | .stop => (stopStep s, none)
  | .onstart => (onstartStep s, none)
  | .onend => (onendStep s, none)
  | .onerror => (onerrorStep s, none)
  | .tick => (tickStep s, none)

/-- Run a list of interactions from a state (a thrown speak leaves the
state unchanged, as in the source, and the caller may keep going). -/
def runActs (s : TtsState) : List Act → TtsState
  | [] => s
  | a :: rest => runActs (stepAct s a).1 rest

/-- Iterated word-timer firings. -/
def tickN (s : TtsState) : Nat → TtsState
  | 0 => s
  | k + 1 => tickN (tickStep s) k

/-- States reachable from the fresh manager by any interaction sequence. -/
def Reachable (s : TtsState) : Prop := ∃ acts, runActs initialState acts = s

/-- Timer invariant of `UniversalTTSManager`: when no session is playing
there is no pending word timer. -/
def TimerInv (s : TtsState) : Prop := s.isPlaying = false → s.wordTimer = false

/-- Pause invariant of `UniversalTTSManager`: a paused manager is
playing. -/
def PauseInv (s : TtsState) : Prop := s.isPaused = true → s.isPlaying = true

/-! ## The `SimpleTtsManager` playback flags

src/public/SimpleTtsManager.js tracks the same `isPlaying`/`isPaused`
pair; its `speak` additionally has two Linux-specific resolution paths
that set the flags outside the engine callbacks. -/

/-- The `{isPlaying, isPaused}` pair reported by
`SimpleTtsManager.getStatus()`. -/
structure SimpleFlags where
  isPlaying : Bool
  isPaused : Bool
deriving DecidableEq, Repr

/-- Flag-changing interactions of `SimpleTtsManager`. -/
inductive SimpleAct where
  /-- a `speak` call passing its guards runs `this.stop()` (line 118). -/
  | speakIssue
  /-- the `utterance.onstart` handler (lines 155-163). -/
  | onstart
  /-- the `utterance.onend` handler (lines 165-172). -/
  | onend
  /-- the `utterance.onerror` handler (lines 174-188). -/
  | onerror
  /-- the 1s Linux speech-start timeout (lines 143-153). -/
  | linuxTimeout
  /-- the 500ms Linux fallback resolution (lines 195-205), which sets
  only `isPlaying`. -/
  | linuxFallback
  /-- a `pause()` call (lines 214-220). -/
  | pause
  /-- a `resume()` call (lines 222-228). -/
  | resume
  /-- a `stop()` call (lines 230-238). -/
  | stop
deriving DecidableEq, Repr

/-- One flag transition of `SimpleTtsManager`. -/
def simpleStep (f : SimpleFlags) : SimpleAct → SimpleFlags
  | .speakIssue => if f.isPlaying then ⟨false, false⟩ else f
  | .onstart => ⟨true, false⟩
  | .onend => ⟨false, false⟩
  | .onerror => ⟨false, false⟩
  | .linuxTimeout => ⟨true, false⟩
  | .linuxFallback => { f with isPlaying := true }
  | .pause => if f.isPlaying && !f.isPaused then { f with isPaused := true } else f
  | .resume => if f.isPaused then { f with isPaused := false } else f
  | .stop => if f.isPlaying then ⟨false, false⟩ else f

/-- Run a list of `SimpleTtsManager` interactions. -/
def simpleRun (f : SimpleFlags) : List SimpleAct → SimpleFlags
  | [] => f
  | a :: rest => simpleRun (simpleStep f a) rest

/-- Flag states of `SimpleTtsManager` reachable from the fresh manager. -/
def SimpleReachable (f : SimpleFlags) : Prop :=
  ∃ acts, simpleRun ⟨false, false⟩ acts = f

/-! ## Provider initialization

### `UniversalTtsManager` (src/public/UniversalTtsManager.js)

`initializeProviders()` (lines 59-71) awaits all four provider
initializers unconditionally; `selectBestProvider()` (lines 376-400) then
filters the available ones, sorts ascending by priority and takes the
first whose branch condition holds.  The host outcomes each initializer
can observe are collected in `UniEnv`. -/

/-- Host outcomes observed by the four provider initializers. -/
structure UniEnv where
  /-- whether `window.responsiveVoice` is present with `voiceSupport()`, or the
  dynamic load succeeds (lines 73-99). -/
  responsiveVoiceAvailable : Bool
  /-- voices found by `loadVoicesEnhanced()` (lines 138-166). -/
  webSpeechVoices : List Voice
  /-- voices found by the platform-specific loaders (lines 244-281). -/
  enhancedVoices : List Voice
deriving DecidableEq, Repr

/-- One entry of `this.providers` after initialization. -/
structure ProviderEntry where
  name : String
  available : Bool
  voices : List Voice
  priority : Nat
deriving DecidableEq, Repr

/-- The `this.providers` table after `initializeProviders()` ran all four
initializers: `responsiveVoice` becomes available on load success;
`webSpeech`/`speechSynthesis` become available exactly when their voice
loading found a non-empty list (lines 149-165, 273-280); `cloudTts` is
set available unconditionally (lines 351-374). -/
def universalProvidersAfterInit (env : UniEnv) : List ProviderEntry :=
  [ { name := "responsiveVoice", available := env.responsiveVoiceAvailable,
      voices := [], priority := 1 },
    { name := "webSpeech", available := env.webSpeechVoices.length > 0,
      voices := if env.webSpeechVoices.length > 0 then env.webSpeechVoices else [],
      priority := 2 },
    { name := "speechSynthesis", available := env.enhancedVoices.length > 0,
      voices := if env.enhancedVoices.length > 0 then env.enhancedVoices else [],
      priority := 3 },
    { name := "cloudTts", available := true, voices := [], priority := 4 } ]

/-- The probes `initializeProviders()` runs, in order — all four, with no
short-circuit (lines 59-71). -/
def universalProbeLog (_env : UniEnv) : List String :=
  ["responsiveVoice", "webSpeech", "speechSynthesis", "cloudTts"]

/-- The branch conditions of the `selectBestProvider()` loop
(lines 382-396), applied to the available providers in ascending
priority order. -/
def selectBestProviderFrom : List ProviderEntry → Option String
  | [] => none
  | p :: rest =>
    if p.name == "responsiveVoice" && p.available then some p.name
    else if (p.name == "webSpeech" || p.name == "speechSynthesis")
            && p.voices.length > 0 then some p.name
    else if p.name == "cloudTts" && p.available then some p.name
    else selectBestProviderFrom rest

/-- Model of `selectBestProvider()` (lines 376-400). -/
def selectBestProvider (providers : List ProviderEntry) : Option String :=
  selectBestProviderFrom
    ((providers.filter (·.available)).mergeSort (fun a b => decide (a.priority ≤ b.priority)))

/-- Outcome of an `initialize()` call of either provider-selecting
manager. -/
structure InitOutcome where
  result : Bool
  selected : Option String
  probed : List String
  guidanceCount : Nat
deriving DecidableEq, Repr

/-- Model of `UniversalTtsManager.initialize()` (lines 39-57): initialize all
providers, select the best; on `null` selection call
`showNoTtsAvailableError()` once and resolve `false`, otherwise resolve
`true`. -/
def universalInitializeRun (env : UniEnv) : InitOutcome :=
  let providers := universalProvidersAfterInit env
  match selectBestProvider providers with
  | none => { result := false, selected := none,
              probed := universalProbeLog env, guidanceCount := 1 }
  | some n => { result := true, selected := some n,
                probed := universalProbeLog env, guidanceCount := 0 }

/-! ### `TtsManagerFixed` (src/src/components/TtsManagerFixed.js) -/

/-- A registered provider of `TtsManagerFixed` with the outcome its
liveness `test()` would produce on this host (a thrown test counts as a
failed probe — `initialize()` catches it, lines 60-62). -/
structure FixedProvider where
  name : String
  test : Bool
deriving DecidableEq, Repr

/-- Host outcomes for `TtsManagerFixed`. -/
structure FixedEnv where
  /-- outcome of `testEnhancedWebSpeech()` (lines 117-159). -/
  ewsTestPasses : Bool
  /-- whether `speechSynthesis.getVoices().length === 0` when re-checked after
  selecting Enhanced Web Speech (lines 43-44). -/
  voicesEmpty : Bool
  /-- outcome of `testExtensionBridge()` (lines 461-487). -/
  extensionPasses : Bool
  /-- outcome of `testCopyHelper()` (lines 544-547). -/
  copyHelperPasses : Bool
  /-- the raw `navigator.platform` string, used by
  `showSystemSpecificGuidance()`. -/
  platformString : String
deriving DecidableEq, Repr

/-- The provider list of `registerProviders()` (lines 70-114), in registration order;
`testFreeTTS()` always throws (lines 425-428), so its probe always
fails. -/
def fixedProviders (env : FixedEnv) : List FixedProvider :=
  [ { name := "Enhanced Web Speech", test := env.ewsTestPasses },
    { name := "Free TTS API", test := false },
    { name := "Extension Bridge", test := env.extensionPasses },
    { name := "Copy & Paste Helper", test := env.copyHelperPasses } ]

/-- The probing loop of `TtsManagerFixed.initialize()` (lines 32-63):
providers are tested in order; the loop returns at the first passing
test.  Result: (names probed, first passing provider if any). -/
def fixedInitGo : List FixedProvider → List String × Option String
  | [] => ([], none)
  | p :: rest =>
    if p.test then ([p.name], some p.name)
    else
      let (probed, sel) := fixedInitGo rest
      (p.name :: probed, sel)

/-- The four guidance messages `showSystemSpecificGuidance()`
(lines 651-757) can build; the long HTML bodies are abstracted to one
tag per distinct branch (the four source strings are pairwise
distinct). -/
inductive GuidanceMessage where
  | linuxInstallVoices
  | windowsEnableTts
  | macEnableTts
  | genericTtsSetup
deriving DecidableEq, Repr

/-- The branch structure of `showSystemSpecificGuidance()`: dispatch on
substrings of the lower-cased `navigator.platform`. -/
def fixedGuidanceMessage (platformString : String) : GuidanceMessage :=
  let platform := jsToLower platformString
  if jsIncludes platform "linux" then .linuxInstallVoices
  else if jsIncludes platform "win" then .windowsEnableTts
  else if jsIncludes platform "mac" then .macEnableTts
  else .genericTtsSetup

/-- Model of `TtsManagerFixed.initialize()` (lines 25-68): probe in order; on the
first success become initialized with that provider — except that a
successful Enhanced Web Speech with an empty voice list is swapped for
the Copy & Paste Helper (lines 41-53) — and resolve `true`; if no test
passes, call `showSystemSpecificGuidance()` once and resolve `false`. -/
def fixedInitializeRun (env : FixedEnv) : InitOutcome :=
  let (probed, sel) := fixedInitGo (fixedProviders env)
  match sel with
  | some n =>
    let active := if n = "Enhanced Web Speech" && env.voicesEmpty
                  then "Copy & Paste Helper" else n
    { result := true, selected := some active, probed := probed, guidanceCount := 0 }
  | none =>
    { result := false, selected := none, probed := probed, guidanceCount := 1 }

/-- The guidance `TtsManagerFixed.initialize()` presents: only on total
probe failure, and then the platform-dispatched message. -/
def fixedGuidanceShown (env : FixedEnv) : Option GuidanceMessage :=
  if (fixedInitializeRun env).result then none
  else some (fixedGuidanceMessage env.platformString)



end Tts

namespace Tts

/-! ## Claim theorems -/

/-- Clamping to `[lo, hi]` really lands in `[lo, hi]`. -/
lemma jsClamp_bounds (lo hi x : ℚ) (h : lo ≤ hi) :
    lo ≤ jsClamp lo hi x ∧ jsClamp lo hi x ≤ hi :=
  ⟨le_max_left _ _, max_le h (min_le_left _ _)⟩

/-- C1, counterexample: `UniversalTTSManager.speakWithWordCallback` with
`options.rate = 100` applies rate `100` to the utterance — outside the
engine's valid rate range `[0.1, 10]` — so rate is passed through
unclamped, contradicting the claim that every `speak` path clamps. -/
theorem c1_counterexample :
    ttsUttRate (some (JNum.num 100)) = 100 ∧ ¬ ((100 : ℚ) ≤ 10) := by
  constructor
  · rfl
  · norm_num

/-- C1, amended: `SimpleTtsManager.speak` clamps rate to `[0.1, 10]`,
pitch to `[0, 2]` and volume to `[0, 1]` for every input, and coerces
`NaN` (and the other falsy inputs) to the defaults `1.0`;
`UniversalTTSManager.speakWithWordCallback` coerces `NaN` to its defaults
`0.9`/`1.0`/`0.85` but applies numeric values without clamping. -/
theorem c1_amended :
    (∀ rate pitch volume : JVal,
      1/10 ≤ simpleUttRate rate ∧ simpleUttRate rate ≤ 10 ∧
      0 ≤ simpleUttPitch pitch ∧ simpleUttPitch pitch ≤ 2 ∧
      0 ≤ simpleUttVolume volume ∧ simpleUttVolume volume ≤ 1) ∧
    simpleUttRate (some JNum.nan) = 1 ∧
    simpleUttPitch (some JNum.nan) = 1 ∧
    simpleUttVolume (some JNum.nan) = 1 ∧
    ttsUttRate (some JNum.nan) = 9/10 ∧
    ttsUttPitch (some JNum.nan) = 1 ∧
    ttsUttVolume (some JNum.nan) = 85/100 ∧
    (∀ q : ℚ, q ≠ 0 → ttsUttRate (some (JNum.num q)) = q) := by
  refine ⟨fun rate pitch volume => ?_,
    by norm_num [simpleUttRate, jsClamp, jsOr],
    by norm_num [simpleUttPitch, jsClamp, jsOr],
    by norm_num [simpleUttVolume, jsClamp, jsOr],
    rfl, rfl, rfl, fun q hq => ?_⟩
  · obtain ⟨h1, h2⟩ := jsClamp_bounds (1/10) 10 (jsOr rate 1) (by norm_num)
    obtain ⟨h3, h4⟩ := jsClamp_bounds 0 2 (jsOr pitch 1) (by norm_num)
    obtain ⟨h5, h6⟩ := jsClamp_bounds 0 1 (jsOr volume 1) (by norm_num)
    exact ⟨h1, h2, h3, h4, h5, h6⟩
  · simp [ttsUttRate, jsOr, hq]

/-- C1, witness for the amended theorem: the clamps at rate `100`,
and the unclamped pass-through at rate `100`. -/
theorem c1_witness :
    simpleUttRate (some (JNum.num 100)) ≤ 10 ∧
    ttsUttRate (some (JNum.num 100)) = 100 :=
  ⟨(c1_amended.1 (some (JNum.num 100)) none none).2.1,
   c1_amended.2.2.2.2.2.2.2 100 (by norm_num)⟩


/-- Probing in `TtsManagerFixed.initialize()` stops at the first passing
test: with all of `pre` failing and `p` passing, exactly `pre ++ [p]` is
probed and `p` is the first success. -/
lemma fixedInitGo_eq (pre : List FixedProvider) (p : FixedProvider)
    (post : List FixedProvider) (hpre : ∀ q ∈ pre, q.test = false)
    (hp : p.test = true) :
    fixedInitGo (pre ++ p :: post) = ((pre ++ [p]).map FixedProvider.name, some p.name) := by
  induction pre with
  | nil => simp [fixedInitGo, hp]
  | cons q rest ih =>
    have hq : q.test = false := hpre q (by simp)
    have ih' := ih (fun r hr => hpre r (by simp [hr]))
    simp [fixedInitGo, hq, ih']

/-- C2, counterexample: with ResponsiveVoice available,
`UniversalTtsManager.initialize()` still probes `webSpeech`,
`speechSynthesis` and `cloudTts` — providers of lower priority than the
selected `responsiveVoice` — because `initializeProviders()` awaits all
four initializers before any selection happens. -/
theorem c2_counterexample :
    (universalInitializeRun ⟨true, [], []⟩).selected = some "responsiveVoice" ∧
    "webSpeech" ∈ (universalInitializeRun ⟨true, [], []⟩).probed ∧
    "speechSynthesis" ∈ (universalInitializeRun ⟨true, [], []⟩).probed ∧
    "cloudTts" ∈ (universalInitializeRun ⟨true, [], []⟩).probed := by
  have hsel : selectBestProvider (universalProvidersAfterInit ⟨true, [], []⟩) =
      some "responsiveVoice" := by
    rw [selectBestProvider, List.mergeSort_of_sorted (by decide)]
    decide
  rw [universalInitializeRun, hsel]
  exact ⟨rfl, by decide, by decide, by decide⟩

/-- C2, amended: in `TtsManagerFixed.initialize()` the providers are
probed in registration order, probing stops at the first passing test and
that provider becomes active (except that a passing Enhanced Web Speech
with an empty voice list is swapped for the Copy & Paste Helper); in
`UniversalTtsManager`, `initializeProviders()` unconditionally probes all
four providers and only then does `selectBestProvider()` pick, in
ascending priority order, the first available one. -/
theorem c2_amended :
    (∀ (env : FixedEnv) (pre : List FixedProvider) (p : FixedProvider)
       (post : List FixedProvider),
      fixedProviders env = pre ++ p :: post →
      (∀ q ∈ pre, q.test = false) → p.test = true →
      (fixedInitializeRun env).probed = (pre ++ [p]).map FixedProvider.name ∧
      (fixedInitializeRun env).result = true ∧
      (fixedInitializeRun env).selected =
        some (if p.name = "Enhanced Web Speech" && env.voicesEmpty
              then "Copy & Paste Helper" else p.name)) ∧
    (∀ env : UniEnv,
      (universalInitializeRun env).probed =
        ["responsiveVoice", "webSpeech", "speechSynthesis", "cloudTts"]) := by
  constructor
  · intro env pre p post hdecomp hpre hp
    have h := fixedInitGo_eq pre p post hpre hp
    rw [fixedInitializeRun, hdecomp, h]
    exact ⟨rfl, rfl, rfl⟩
  · intro env
    rw [universalInitializeRun]
    cases selectBestProvider (universalProvidersAfterInit env) <;> rfl

/-- C2, witness: Enhanced Web Speech and Free TTS fail, Extension Bridge
passes — only the first three providers are probed and Extension Bridge
is selected; and the all-four probe list of `UniversalTtsManager`. -/
theorem c2_witness :
    ((fixedInitializeRun ⟨false, false, true, true, "Linux x86_64"⟩).probed =
        (([⟨"Enhanced Web Speech", false⟩, ⟨"Free TTS API", false⟩] : List FixedProvider) ++
          [(⟨"Extension Bridge", true⟩ : FixedProvider)]).map FixedProvider.name ∧
      (fixedInitializeRun ⟨false, false, true, true, "Linux x86_64"⟩).result = true ∧
      (fixedInitializeRun ⟨false, false, true, true, "Linux x86_64"⟩).selected =
        some (if ("Extension Bridge" : String) = "Enhanced Web Speech" && false
              then "Copy & Paste Helper" else "Extension Bridge")) ∧
    (universalInitializeRun ⟨false, [], []⟩).probed =
      ["responsiveVoice", "webSpeech", "speechSynthesis", "cloudTts"] :=
  ⟨c2_amended.1 ⟨false, false, true, true, "Linux x86_64"⟩
      ([⟨"Enhanced Web Speech", false⟩, ⟨"Free TTS API", false⟩] : List FixedProvider)
      (⟨"Extension Bridge", true⟩ : FixedProvider)
      ([⟨"Copy & Paste Helper", true⟩] : List FixedProvider)
      (by decide) (by decide) (by decide),
   c2_amended.2 ⟨false, [], []⟩⟩

/-- The fold inside `getBestVoice` returns one of its candidates. -/
lemma foldBest_mem (platform : Platform) (v : Voice) (rest : List Voice) :
    rest.foldl (fun best w =>
      if calculateVoiceScore platform w > calculateVoiceScore platform best then w else best) v
      ∈ v :: rest := by
  induction rest generalizing v with
  | nil => simp
  | cons w ws ih =>
    simp only [List.foldl_cons]
    by_cases h : calculateVoiceScore platform w > calculateVoiceScore platform v
    · have := ih w
      simp only [if_pos h]
      simp only [List.mem_cons] at this ⊢
      tauto
    · have := ih v
      simp only [if_neg h]
      simp only [List.mem_cons] at this ⊢
      tauto

/-- The pick of `getBestVoice` is a member of the inventory it was given. -/
lemma getBestVoice_mem (platform : Platform) (voices : List Voice) (b : Voice)
    (h : getBestVoice platform voices = some b) : b ∈ voices := by
  cases voices with
  | nil => simp [getBestVoice] at h
  | cons v rest =>
    simp only [getBestVoice, Option.some.injEq] at h
    exact h ▸ foldBest_mem platform v rest

/-- Ranking preserves the size of the inventory. -/
lemma getBestVoices_length (platform : Platform) (voices : List Voice) :
    (getBestVoices platform voices).length = voices.length := by
  cases voices with
  | nil => simp [getBestVoices]
  | cons v rest => simp [getBestVoices, List.length_mergeSort]

/-- Members of `getBestVoices` come from the inventory. -/
lemma getBestVoices_mem (platform : Platform) (voices : List Voice) (b : Voice)
    (h : b ∈ getBestVoices platform voices) : b ∈ voices := by
  cases voices with
  | nil => simp [getBestVoices] at h
  | cons v rest =>
    simp only [getBestVoices, List.length_cons] at h
    rw [if_neg (by simp)] at h
    obtain ⟨p, hp_mem, hp1⟩ := List.mem_map.1 h
    have hp_pairs := List.mem_mergeSort.1 hp_mem
    obtain ⟨a, ha_mem, ha⟩ := List.mem_map.1 hp_pairs
    rw [← hp1, ← ha]
    exact ha_mem

/-- The head of `getBestVoices` has maximal quality score: the sort is
descending, so the first element dominates every inventory member. -/
lemma getBestVoices_head_max (platform : Platform) (voices : List Voice)
    (b : Voice) (rest : List Voice)
    (h : getBestVoices platform voices = b :: rest) :
    ∀ v ∈ voices, calculateVoiceQuality platform v ≤ calculateVoiceQuality platform b := by
  intro v hv
  have hvoices : ¬ voices.length = 0 := by
    intro h0
    rw [List.length_eq_zero] at h0
    subst h0
    simp [getBestVoices] at h
  rw [getBestVoices, if_neg hvoices] at h
  have hpw := @List.sorted_mergeSort (Voice × Int)
    (fun a b => decide (a.2 ≥ b.2))
    (fun a b c hab hbc => by
      simp only [decide_eq_true_eq] at hab hbc ⊢
      exact le_trans hbc hab)
    (fun a b => by
      simp only [Bool.or_eq_true, decide_eq_true_eq]
      exact le_total b.2 a.2)
    (voices.map (fun v => (v, calculateVoiceQuality platform v)))
  obtain ⟨p, ps, hsorted⟩ : ∃ p ps,
      (voices.map (fun v => (v, calculateVoiceQuality platform v))).mergeSort
        (fun a b => decide (a.2 ≥ b.2)) = p :: ps := by
    cases hms : (voices.map (fun v => (v, calculateVoiceQuality platform v))).mergeSort
        (fun a b => decide (a.2 ≥ b.2)) with
    | nil => rw [hms] at h; simp at h
    | cons p ps => exact ⟨p, ps, rfl⟩
  rw [hsorted] at h
  simp only [List.map_cons] at h
  have hb : p.1 = b := (List.cons.injEq _ _ _ _ ▸ h).1
  have hp_mem : p ∈ voices.map (fun v => (v, calculateVoiceQuality platform v)) :=
    List.mem_mergeSort.1 (hsorted ▸ List.mem_cons_self p ps)
  have hp2 : p.2 = calculateVoiceQuality platform p.1 := by
    obtain ⟨a, _, ha⟩ := List.mem_map.1 hp_mem
    rw [← ha]
  have hv_mem : (v, calculateVoiceQuality platform v) ∈ p :: ps :=
    hsorted ▸ List.mem_mergeSort.2 (List.mem_map.2 ⟨v, hv, rfl⟩)
  rcases List.mem_cons.1 hv_mem with heq | hmem
  · have : v = p.1 := by rw [← heq]
    rw [this, hb]
  · rw [hsorted] at hpw
    have hle := (List.pairwise_cons.1 hpw).1 _ hmem
    simp only [decide_eq_true_eq] at hle
    calc calculateVoiceQuality platform v ≤ p.2 := hle
    _ = calculateVoiceQuality platform p.1 := hp2
    _ = calculateVoiceQuality platform b := by rw [hb]

/-- C3, counterexample: `UniversalTTSManager.speakWithWordCallback` never
consults a caller-supplied voice: with the caller voice "Zzz" present in
the inventory, the utterance still receives the ranker pick "Alex". -/
theorem c3_counterexample :
    (⟨"Zzz", "fr-FR", false, false⟩ : Voice) ∈
      ([⟨"Zzz", "fr-FR", false, false⟩, ⟨"Alex", "en-US", false, false⟩] : List Voice) ∧
    ttsUtteranceVoice .unknown
      [⟨"Zzz", "fr-FR", false, false⟩, ⟨"Alex", "en-US", false, false⟩]
      (some ⟨"Zzz", "fr-FR", false, false⟩) = some ⟨"Alex", "en-US", false, false⟩ ∧
    (⟨"Alex", "en-US", false, false⟩ : Voice) ≠ ⟨"Zzz", "fr-FR", false, false⟩ := by
  refine ⟨by decide, by decide, by decide⟩

/-- C3, amended: in `SimpleTtsManager.speak` the claimed precedence holds
(caller voice when in the inventory, else the ranker's top pick — a
member of maximal quality score — else nothing when the inventory is
empty); in `UniversalTTSManager.speakWithWordCallback` the caller voice
is never consulted: the utterance voice is `getBestVoice()` regardless,
a member of the inventory when one exists. -/
theorem c3_amended :
    (∀ (platform : Platform) (voices : List Voice) (v : Voice),
      v ∈ voices → simpleSpeakVoice platform voices (some v) = some v) ∧
    (∀ (platform : Platform) (voices : List Voice) (optV : Option Voice),
      (∀ v, optV = some v → v ∉ voices) → voices ≠ [] →
      ∃ b, simpleSpeakVoice platform voices optV = some b ∧ b ∈ voices ∧
        ∀ v ∈ voices, calculateVoiceQuality platform v ≤ calculateVoiceQuality platform b) ∧
    (∀ (platform : Platform) (optV : Option Voice),
      simpleSpeakVoice platform [] optV = none) ∧
    (∀ (platform : Platform) (voices : List Voice) (o₁ o₂ : Option Voice),
      ttsUtteranceVoice platform voices o₁ = ttsUtteranceVoice platform voices o₂) ∧
    (∀ (platform : Platform) (voices : List Voice) (b : Voice) (o : Option Voice),
      ttsUtteranceVoice platform voices o = some b → b ∈ voices) := by
  refine ⟨?_, ?_, ?_, ?_, ?_⟩
  · intro platform voices v hv
    simp [simpleSpeakVoice, List.elem_iff, hv]
  · intro platform voices optV hnot hne
    have hauto : simpleSpeakVoice platform voices optV = simpleAutoVoice platform voices := by
      cases optV with
      | none => rfl
      | some v =>
        have hv : v ∉ voices := hnot v rfl
        simp [simpleSpeakVoice, List.elem_iff, hv]
    cases hbv : getBestVoices platform voices with
    | nil =>
      exfalso
      apply hne
      have := getBestVoices_length platform voices
      rw [hbv] at this
      exact List.length_eq_zero.1 this.symm
    | cons b rest =>
      refine ⟨b, ?_, ?_, getBestVoices_head_max platform voices b rest hbv⟩
      · rw [hauto, simpleAutoVoice, hbv]
      · exact getBestVoices_mem platform voices b (hbv ▸ List.mem_cons_self b rest)
  · intro platform optV
    cases optV <;> simp [simpleSpeakVoice, simpleAutoVoice, getBestVoices]
  · intro platform voices o₁ o₂
    rfl
  · intro platform voices b o h
    exact getBestVoice_mem platform voices b h

/-- C3, witness: a caller voice present in a one-element inventory is
chosen. -/
theorem c3_witness :
    simpleSpeakVoice .unknown ([⟨"A", "en-US", false, false⟩] : List Voice)
      (some ⟨"A", "en-US", false, false⟩) = some ⟨"A", "en-US", false, false⟩ :=
  c3_amended.1 Platform.unknown ([⟨"A", "en-US", false, false⟩] : List Voice)
    (⟨"A", "en-US", false, false⟩ : Voice) (by decide)


/-- The `selectBestProvider` loop cannot come back empty while an
available `cloudTts` entry is among the candidates. -/
lemma selectFrom_isSome_of_cloud (l : List ProviderEntry) (c : ProviderEntry)
    (hc : c ∈ l) (hname : c.name = "cloudTts") (hav : c.available = true) :
    (selectBestProviderFrom l).isSome = true := by
  induction l with
  | nil => simp at hc
  | cons p rest ih =>
    rcases List.mem_cons.1 hc with heq | hmem
    · subst heq
      rw [selectBestProviderFrom]
      simp [hname, hav]
    · rw [selectBestProviderFrom]
      split_ifs <;> first
        | rfl
        | exact ih hmem

/-- Every `UniEnv` leaves `UniversalTtsManager` with a selected provider:
the `cloudTts` entry is unconditionally available. -/
lemma universalSelect_isSome (env : UniEnv) :
    (selectBestProvider (universalProvidersAfterInit env)).isSome = true := by
  apply selectFrom_isSome_of_cloud _ ⟨"cloudTts", true, [], 4⟩ ?_ rfl rfl
  rw [List.mem_mergeSort, List.mem_filter]
  exact ⟨by simp [universalProvidersAfterInit], rfl⟩

/-- C6: in `TtsManagerFixed`, if every registered provider's probe fails,
`initialize()` resolves `false` (never `true`) and the guidance dialog is
presented exactly once with the platform-dispatched message — and the
messages for distinct platforms really differ; in `UniversalTtsManager`
the antecedent is unreachable: its `cloudTts` provider is always
available, so `initialize()` always resolves `true` and
`showNoTtsAvailableError()` is never called. -/
theorem c6_theorem :
    (∀ env : FixedEnv,
      env.ewsTestPasses = false → env.extensionPasses = false →
      env.copyHelperPasses = false →
      (∀ p ∈ fixedProviders env, p.test = false) ∧
      (fixedInitializeRun env).result = false ∧
      (fixedInitializeRun env).guidanceCount = 1 ∧
      fixedGuidanceShown env = some (fixedGuidanceMessage env.platformString)) ∧
    (fixedGuidanceMessage "Linux x86_64" ≠ fixedGuidanceMessage "Win32" ∧
      fixedGuidanceMessage "Win32" ≠ fixedGuidanceMessage "MacIntel" ∧
      fixedGuidanceMessage "Linux x86_64" ≠ fixedGuidanceMessage "MacIntel") ∧
    (∀ env : UniEnv, (universalInitializeRun env).result = true ∧
      (universalInitializeRun env).guidanceCount = 0) := by
  refine ⟨?_, ⟨by decide, by decide, by decide⟩, ?_⟩
  · intro env h1 h2 h3
    have hrun : fixedInitGo (fixedProviders env) =
        (["Enhanced Web Speech", "Free TTS API", "Extension Bridge",
          "Copy & Paste Helper"], none) := by
      simp [fixedProviders, fixedInitGo, h1, h2, h3]
    refine ⟨?_, ?_, ?_, ?_⟩
    · intro p hp
      simp only [fixedProviders, h1, h2, h3, List.mem_cons, List.not_mem_nil,
        or_false] at hp
      rcases hp with h | h | h | h <;> subst h <;> rfl
    · rw [fixedInitializeRun, hrun]
    · rw [fixedInitializeRun, hrun]
    · rw [fixedGuidanceShown, fixedInitializeRun, hrun]
      rfl
  · intro env
    obtain ⟨n, hn⟩ := Option.isSome_iff_exists.1 (universalSelect_isSome env)
    rw [universalInitializeRun, hn]
    exact ⟨rfl, rfl⟩

/-- C6, witness: all four probes of `TtsManagerFixed` fail on a Linux
host — `initialize()` resolves `false` and the Linux guidance message is
presented once. -/
theorem c6_witness :
    (fixedInitializeRun ⟨false, false, false, false, "Linux x86_64"⟩).result = false ∧
    (fixedInitializeRun ⟨false, false, false, false, "Linux x86_64"⟩).guidanceCount = 1 ∧
    fixedGuidanceShown ⟨false, false, false, false, "Linux x86_64"⟩ =
      some GuidanceMessage.linuxInstallVoices :=
  have h := c6_theorem.1 ⟨false, false, false, false, "Linux x86_64"⟩ rfl rfl rfl
  ⟨h.2.1, h.2.2.1, h.2.2.2.trans (by decide)⟩


/-- Full specification of the `loadVoicesAttempt` retry loop: it resolves
within the attempt cap, returns the snapshot of its final attempt, every
earlier attempt saw an empty list, and an empty result means the cap was
exhausted. -/
lemma loadVoicesGo_spec (env : Nat → List Voice) :
    ∀ (fuel attempts : Nat), maxAttempts ≤ attempts + fuel →
    attempts < maxAttempts →
    attempts + 1 ≤ (loadVoicesGo env attempts).1 ∧
    (loadVoicesGo env attempts).1 ≤ maxAttempts ∧
    (loadVoicesGo env attempts).2 = env (loadVoicesGo env attempts).1 ∧
    (∀ k, attempts + 1 ≤ k → k < (loadVoicesGo env attempts).1 → env k = []) ∧
    ((loadVoicesGo env attempts).2 = [] →
      (loadVoicesGo env attempts).1 = maxAttempts) := by
  intro fuel
  induction fuel with
  | zero => intro attempts hcap hlt; omega
  | succ fuel ih =>
    intro attempts hcap hlt
    rw [loadVoicesGo]
    by_cases h1 : (env (attempts + 1)).length > 0
    · rw [if_pos h1]
      refine ⟨le_refl _, by omega, rfl, fun k hk1 hk2 => by omega, fun hnil => ?_⟩
      have henv : env (attempts + 1) = [] := hnil
      rw [henv] at h1
      simp at h1
    · rw [if_neg h1]
      by_cases h2 : attempts + 1 ≥ maxAttempts
      · rw [if_pos h2]
        exact ⟨le_refl _, by omega, rfl, fun k hk1 hk2 => by omega, fun _ => by omega⟩
      · rw [if_neg h2]
        obtain ⟨ha1, ha2, ha3, ha4, ha5⟩ := ih (attempts + 1) (by omega) (by omega)
        refine ⟨by omega, ha2, ha3, fun k hk1 hk2 => ?_, ha5⟩
        by_cases hk : k = attempts + 1
        · subst hk
          simpa using Nat.le_zero.1 (Nat.not_lt.1 h1)
        · exact ha4 k (by omega) hk2

/-- C8: `loadVoices()` always resolves: attempts are numbered from 1,
resolution happens by attempt `maxAttempts = 50` at the latest (each
retry scheduled after `voiceRetryDelayMs = 100` ms), the promise resolves
with the snapshot of its final attempt, it resolves early at the first
non-empty snapshot (all earlier attempts saw an empty list), and an empty
result occurs only after the full 50-attempt cap — never a rejection. -/
theorem c8_theorem (env : Nat → List Voice) :
    1 ≤ (loadVoices env).1 ∧
    (loadVoices env).1 ≤ maxAttempts ∧
    (loadVoices env).2 = env (loadVoices env).1 ∧
    (∀ k, 1 ≤ k → k < (loadVoices env).1 → env k = []) ∧
    ((loadVoices env).2 = [] → (loadVoices env).1 = maxAttempts) := by
  have h := loadVoicesGo_spec env maxAttempts 0 (by omega) (by norm_num [maxAttempts])
  simpa [loadVoices] using h

/-- C8, witness: on `envThirdAttempt`, `loadVoices` resolves within the
cap, and the theorem confirms attempt 2 saw no voices. -/
theorem c8_witness :
    (loadVoices envThirdAttempt).1 ≤ maxAttempts ∧ envThirdAttempt 2 = [] :=
  ⟨(c8_theorem envThirdAttempt).2.1,
   (c8_theorem envThirdAttempt).2.2.2.1 2 (by omega)
     (by simp [loadVoices, loadVoicesGo, maxAttempts, envThirdAttempt])⟩


/-- C9: a `speak` call before `initialize()` has completed throws
`TTS not initialized` for every text; after initialization, an empty or
whitespace-only text throws `No text provided for speech` — in both
managers, in both cases before any utterance is queued or any playback
state changes (the returned state is exactly the input state). -/
theorem c9_theorem (s : TtsState) (text : String) (hasCb : Bool) :
    (s.isInitialized = false →
      stepAct s (.speak text hasCb) = (s, some "TTS not initialized") ∧
      simpleSpeakGuard false text = some "TTS not initialized") ∧
    (s.isInitialized = true → jsTrim text = "" →
      stepAct s (.speak text hasCb) = (s, some "No text provided for speech") ∧
      simpleSpeakGuard true text = some "No text provided for speech") := by
  constructor
  · intro hinit
    constructor
    · simp [stepAct, speakStep, hinit]
    · rfl
  · intro hinit htrim
    constructor
    · simp [stepAct, speakStep, hinit, htrim]
    · simp [simpleSpeakGuard, htrim]

/-- C9, witness: `speak` on the fresh manager rejects as uninitialized;
after `initialize()`, a whitespace-only text rejects with no state
change. -/
theorem c9_witness :
    (stepAct initialState (.speak "hello" false) =
        (initialState, some "TTS not initialized") ∧
      simpleSpeakGuard false "hello" = some "TTS not initialized") ∧
    (stepAct (runActs initialState [.initDone]) (.speak "   " true) =
        (runActs initialState [.initDone], some "No text provided for speech") ∧
      simpleSpeakGuard true "   " = some "No text provided for speech") :=
  ⟨(c9_theorem initialState "hello" false).1 rfl,
   (c9_theorem (runActs initialState [.initDone]) "   " true).2 (by decide) (by decide)⟩


/-- Stopping preserves the timer invariant. -/
lemma stopStep_timerInv (s : TtsState) (h : TimerInv s) : TimerInv (stopStep s) := by
  unfold TimerInv stopStep
  split
  · intro _; rfl
  · exact h

/-- A state with no pending word timer is untouched by a timer firing. -/
lemma tickStep_of_no_timer (s : TtsState) (h : s.wordTimer = false) :
    tickStep s = s := by
  unfold tickStep
  rw [h]
  simp

/-- Every interaction preserves the timer invariant. -/
lemma stepAct_timerInv (s : TtsState) (a : Act) (h : TimerInv s) :
    TimerInv (stepAct s a).1 := by
  cases a with
  | initDone => exact h
  | speak text hasCb =>
    show TimerInv (speakStep s text hasCb).1
    unfold speakStep
    split
    · exact h
    · split
      · exact h
      · exact stopStep_timerInv s h
  | pause =>
    show TimerInv (pauseStep s)
    unfold TimerInv pauseStep
    split
    · rename_i hc
      intro hfalse
      simp only at hfalse
      simp [hfalse] at hc
    · exact h
  | resume =>
    show TimerInv (resumeStep s)
    unfold TimerInv resumeStep
    split
    · exact h
    · exact h
  | stop => exact stopStep_timerInv s h
  | onstart =>
    show TimerInv (onstartStep s)
    unfold TimerInv onstartStep
    intro hfalse
    simp at hfalse
  | onend =>
    show TimerInv (onendStep s)
    intro _; rfl
  | onerror =>
    show TimerInv (onerrorStep s)
    intro _; rfl
  | tick =>
    show TimerInv (tickStep s)
    unfold TimerInv tickStep
    split
    · split
      · exact h
      · intro _; rfl
    · exact h

/-- Every interaction preserves the pause invariant. -/
lemma stepAct_pauseInv (s : TtsState) (a : Act) (h : PauseInv s) :
    PauseInv (stepAct s a).1 := by
  cases a with
  | initDone => exact h
  | speak text hasCb =>
    show PauseInv (speakStep s text hasCb).1
    unfold speakStep
    split
    · exact h
    · split
      · exact h
      · show PauseInv _
        unfold PauseInv stopStep
        split
        · intro hfalse; simp at hfalse
        · exact h
  | pause =>
    show PauseInv (pauseStep s)
    unfold PauseInv pauseStep
    split
    · rename_i hc
      intro _
      simp only
      exact (Bool.and_eq_true _ _ ▸ hc).1
    · exact h
  | resume =>
    show PauseInv (resumeStep s)
    unfold PauseInv resumeStep
    split
    · intro hfalse; simp at hfalse
    · exact h
  | stop =>
    show PauseInv (stopStep s)
    unfold PauseInv stopStep
    split
    · intro hfalse; simp at hfalse
    · exact h
  | onstart =>
    show PauseInv (onstartStep s)
    intro _; rfl
  | onend =>
    show PauseInv (onendStep s)
    intro hfalse; simp [onendStep] at hfalse
  | onerror =>
    show PauseInv (onerrorStep s)
    intro hfalse; simp [onerrorStep] at hfalse
  | tick =>
    show PauseInv (tickStep s)
    unfold PauseInv tickStep
    split
    · split
      · exact h
      · exact h
    · exact h

/-- Runs preserve the timer invariant. -/
lemma runActs_timerInv (acts : List Act) :
    ∀ s : TtsState, TimerInv s → TimerInv (runActs s acts) := by
  induction acts with
  | nil => intro s h; exact h
  | cons a rest ih => intro s h; exact ih _ (stepAct_timerInv s a h)

/-- Runs preserve the pause invariant. -/
lemma runActs_pauseInv (acts : List Act) :
    ∀ s : TtsState, PauseInv s → PauseInv (runActs s acts) := by
  induction acts with
  | nil => intro s h; exact h
  | cons a rest ih => intro s h; exact ih _ (stepAct_pauseInv s a h)

/-- Every reachable state satisfies the timer invariant. -/
lemma reachable_timerInv (s : TtsState) (h : Reachable s) : TimerInv s := by
  obtain ⟨acts, hacts⟩ := h
  exact hacts ▸ runActs_timerInv acts initialState (fun _ => rfl)

/-- Every reachable state satisfies the pause invariant. -/
lemma reachable_pauseInv (s : TtsState) (h : Reachable s) : PauseInv s := by
  obtain ⟨acts, hacts⟩ := h
  exact hacts ▸ runActs_pauseInv acts initialState
    (fun hfalse => by simp [initialState] at hfalse)

/-- Transitions of `SimpleTtsManager` preserve paused-implies-playing. -/
lemma simpleStep_pauseInv (f : SimpleFlags) (a : SimpleAct)
    (h : f.isPaused = true → f.isPlaying = true) :
    (simpleStep f a).isPaused = true → (simpleStep f a).isPlaying = true := by
  cases a with
  | speakIssue =>
    simp only [simpleStep]
    split
    · intro hfalse; simp at hfalse
    · exact h
  | onstart => intro _; rfl
  | onend => intro hfalse; simp [simpleStep] at hfalse
  | onerror => intro hfalse; simp [simpleStep] at hfalse
  | linuxTimeout => intro _; rfl
  | linuxFallback => intro _; rfl
  | pause =>
    simp only [simpleStep]
    split
    · rename_i hc
      intro _
      simp only
      exact (Bool.and_eq_true _ _ ▸ hc).1
    · exact h
  | resume =>
    simp only [simpleStep]
    split
    · intro hfalse; simp at hfalse
    · exact h
  | stop =>
    simp only [simpleStep]
    split
    · intro hfalse; simp at hfalse
    · exact h

/-- Every reachable `SimpleTtsManager` flag state satisfies
paused-implies-playing. -/
lemma simpleReachable_pauseInv (f : SimpleFlags) (h : SimpleReachable f) :
    f.isPaused = true → f.isPlaying = true := by
  obtain ⟨acts, hacts⟩ := h
  subst hacts
  have go : ∀ (acts : List SimpleAct) (g : SimpleFlags),
      (g.isPaused = true → g.isPlaying = true) →
      (simpleRun g acts).isPaused = true → (simpleRun g acts).isPlaying = true := by
    intro acts
    induction acts with
    | nil => intro g hg; exact hg
    | cons a rest ih => intro g hg; exact ih _ (simpleStep_pauseInv g a hg)
  exact go acts ⟨false, false⟩ (fun hfalse => by simp at hfalse)

/-- C7: `stop()` with no active session is a no-op in both managers — the
state is returned unchanged, nothing is thrown and no callback is fired
(the callback log is part of the state) — and whenever `stop()` runs on a
reachable state it leaves no pending word timer, so a later timer firing
changes nothing and no orphaned `onWordStart` fires. -/
theorem c7_theorem :
    (∀ s : TtsState, s.isPlaying = false → stepAct s Act.stop = (s, none)) ∧
    (∀ s : TtsState, Reachable s →
      (stopStep s).wordTimer = false ∧ tickStep (stopStep s) = stopStep s) ∧
    (∀ f : SimpleFlags, f.isPlaying = false → simpleStep f SimpleAct.stop = f) := by
  refine ⟨?_, ?_, ?_⟩
  · intro s h
    simp [stepAct, stopStep, h]
  · intro s hr
    have hti := reachable_timerInv s hr
    have htimer : (stopStep s).wordTimer = false := by
      unfold stopStep
      split
      · rfl
      · rename_i hp
        exact hti (Bool.not_eq_true _ ▸ hp)
    exact ⟨htimer, tickStep_of_no_timer _ htimer⟩
  · intro f h
    simp [simpleStep, h]

/-- C7, witness: `stop()` on the fresh (idle) manager of either kind. -/
theorem c7_witness :
    stepAct initialState Act.stop = (initialState, none) ∧
    (stopStep initialState).wordTimer = false ∧
    simpleStep ⟨false, false⟩ SimpleAct.stop = ⟨false, false⟩ :=
  ⟨c7_theorem.1 initialState rfl,
   (c7_theorem.2.1 initialState ⟨[], rfl⟩).1,
   c7_theorem.2.2 ⟨false, false⟩ rfl⟩

/-- C10: in every reachable state of either manager — under any sequence
of `speak`/`pause`/`resume`/`stop` calls, engine callbacks, timer firings
and (for `SimpleTtsManager`) the Linux resolution paths — `isPaused`
implies `isPlaying`, so `getStatus()` never reports a paused session that
is not playing. -/
theorem c10_theorem :
    (∀ s : TtsState, Reachable s → s.isPaused = true → s.isPlaying = true) ∧
    (∀ f : SimpleFlags, SimpleReachable f → f.isPaused = true → f.isPlaying = true) :=
  ⟨fun s hr => reachable_pauseInv s hr, fun f hf => simpleReachable_pauseInv f hf⟩

/-- C10, witness: the paused state reached by initialize, speak, start,
pause is indeed playing, in both machines. -/
theorem c10_witness :
    (runActs initialState [Act.initDone, Act.speak "a b" true, Act.onstart,
        Act.pause]).isPlaying = true ∧
    (simpleRun ⟨false, false⟩ [SimpleAct.onstart, SimpleAct.pause]).isPlaying = true :=
  ⟨c10_theorem.1 _ ⟨[Act.initDone, Act.speak "a b" true, Act.onstart, Act.pause], rfl⟩
      (by decide),
   c10_theorem.2 _ ⟨[SimpleAct.onstart, SimpleAct.pause], rfl⟩ (by decide)⟩


/-- C4, counterexample: a second `speak` does not cancel a first one that
has not yet reported started — `stop()` is guarded by `isPlaying`, which
is still `false` before `onstart`, so `speechSynthesis.cancel()` is never
called and both utterances sit in the engine queue; the earlier session
will still produce audio, contradicting the claim's "including one that
has been issued but not yet reported started". -/
theorem c4_counterexample :
    (runActs initialState
      [Act.initDone, Act.speak "first text" true,
        Act.speak "second text" true]).engineQueue =
      ["first text", "second text"] ∧
    (runActs initialState
      [Act.initDone, Act.speak "first text" true,
        Act.speak "second text" true]).engineQueue.length ≠ 1 :=
  ⟨by decide, by decide⟩

/-- C4, amended: a `speak` call stops a session that has already reported
started: from any playing state a successful `speak` throws nothing,
cancels the engine state so that exactly its own utterance is queued,
clears the earlier session's word timer and leaves the manager
not-playing until its own `onstart`; a session issued but not yet started
is however not cancelled (its utterance stays queued, see the
counterexample). -/
theorem c4_amended (s : TtsState) (text : String) (hasCb : Bool)
    (hInit : s.isInitialized = true) (hPlay : s.isPlaying = true)
    (hText : ¬ jsTrim text = "") :
    (stepAct s (Act.speak text hasCb)).2 = none ∧
    (stepAct s (Act.speak text hasCb)).1.engineQueue = [text] ∧
    (stepAct s (Act.speak text hasCb)).1.wordTimer = false ∧
    (stepAct s (Act.speak text hasCb)).1.isPlaying = false := by
  have htext0 : ¬ text = "" := fun h => hText (by simp [h, jsTrim])
  have hq : (stopStep s).engineQueue = [] := by
    unfold stopStep
    rw [if_pos hPlay]
  have ht : (stopStep s).wordTimer = false := by
    unfold stopStep
    rw [if_pos hPlay]
  have hp : (stopStep s).isPlaying = false := by
    unfold stopStep
    rw [if_pos hPlay]
  simp only [stepAct, speakStep]
  rw [if_neg (by simp [hInit]), if_neg (by simp [htext0, hText])]
  exact ⟨rfl, by simp [hq], ht, hp⟩

/-- C4, witness: speaking over a started session leaves exactly the new
utterance queued. -/
theorem c4_witness :
    (stepAct (runActs initialState [Act.initDone, Act.speak "a b" true, Act.onstart])
      (Act.speak "c d" true)).2 = none ∧
    (stepAct (runActs initialState [Act.initDone, Act.speak "a b" true, Act.onstart])
      (Act.speak "c d" true)).1.engineQueue = ["c d"] :=
  have h := c4_amended
    (runActs initialState [Act.initDone, Act.speak "a b" true, Act.onstart])
    "c d" true (by decide) (by decide) (by decide)
  ⟨h.1, h.2.1⟩

/-- Splitting an iterated timer run. -/
lemma tickN_add (a b : Nat) : ∀ s : TtsState, tickN s (a + b) = tickN (tickN s a) b := by
  induction a with
  | zero => intro s; rw [Nat.zero_add]; rfl
  | succ a ih =>
    intro s
    have hab : a + 1 + b = (a + b) + 1 := by omega
    rw [hab]
    show tickN (tickStep s) (a + b) = tickN (tickN (tickStep s) a) b
    exact ih (tickStep s)

/-- Timer firings never change `isPlaying`. -/
lemma tickN_isPlaying (k : Nat) : ∀ s : TtsState, (tickN s k).isPlaying = s.isPlaying := by
  induction k with
  | zero => intro s; rfl
  | succ k ih =>
    intro s
    show (tickN (tickStep s) k).isPlaying = s.isPlaying
    rw [ih]
    unfold tickStep
    split
    · split <;> rfl
    · rfl

/-- A cleared timer stays cleared: further firings are the identity. -/
lemma tickN_no_timer (m : Nat) : ∀ s : TtsState, s.wordTimer = false →
    tickN s m = s := by
  induction m with
  | zero => intro s _; rfl
  | succ m ih =>
    intro s h
    show tickN (tickStep s) m = s
    rw [tickStep_of_no_timer s h]
    exact ih s h

/-- Once the word index has passed the word list, timer firings emit
nothing more. -/
lemma tickN_idle (d : Nat) : ∀ s : TtsState,
    s.currentWords.length ≤ s.currentWordIndex →
    (tickN s d).callbackLog = s.callbackLog := by
  induction d with
  | zero => intro s _; rfl
  | succ d ih =>
    intro s h
    show (tickN (tickStep s) d).callbackLog = s.callbackLog
    unfold tickStep
    split
    · rw [if_neg (by simp only [Bool.and_eq_true, decide_eq_true_eq, not_and]; omega)]
      exact ih _ h
    · exact ih s h

/-- The main word-timer run: from a state with an armed timer and a word
callback, `k` in-range firings emit exactly the words at indices
`currentWordIndex .. currentWordIndex + k - 1`, in order, one each. -/
lemma tickN_run (k : Nat) : ∀ s : TtsState,
    s.wordTimer = true → s.hasWordCallback = true →
    s.currentWordIndex + k ≤ s.currentWords.length →
    (tickN s k).callbackLog = s.callbackLog ++
      (List.range k).map (fun t => TtsEvent.wordStart
        (s.currentWords.getD (s.currentWordIndex + t) "") (s.currentWordIndex + t)) ∧
    (tickN s k).currentWordIndex = s.currentWordIndex + k ∧
    (tickN s k).wordTimer = true ∧
    (tickN s k).hasWordCallback = true ∧
    (tickN s k).currentWords = s.currentWords := by
  induction k with
  | zero =>
    intro s h1 h2 _
    exact ⟨by simp [tickN], by simp [tickN], h1, h2, rfl⟩
  | succ k ih =>
    intro s h1 h2 h3
    have hlt : s.currentWordIndex < s.currentWords.length := by omega
    have hcond : (decide (s.currentWordIndex < s.currentWords.length) &&
        s.hasWordCallback) = true := by
      simp [h2, hlt]
    have hstep : tickStep s = { s with
        callbackLog := s.callbackLog ++ [TtsEvent.wordStart
          (s.currentWords.getD s.currentWordIndex "") s.currentWordIndex],
        currentWordIndex := s.currentWordIndex + 1 } := by
      unfold tickStep
      rw [if_pos h1, if_pos hcond]
    obtain ⟨ih1, ih2, ih3, ih4, ih5⟩ := ih (tickStep s)
      (by rw [hstep]; exact h1) (by rw [hstep]; exact h2)
      (by rw [hstep]; show s.currentWordIndex + 1 + k ≤ s.currentWords.length; omega)
    refine ⟨?_, ?_, ih3, ih4, ?_⟩
    rotate_left 2
    · show (tickN (tickStep s) k).currentWords = s.currentWords
      rw [ih5, hstep]
    · show (tickN (tickStep s) k).callbackLog = _
      rw [ih1, hstep]
      show (s.callbackLog ++ [TtsEvent.wordStart
          (s.currentWords.getD s.currentWordIndex "") s.currentWordIndex]) ++
        (List.range k).map (fun t => TtsEvent.wordStart
          (s.currentWords.getD (s.currentWordIndex + 1 + t) "")
          (s.currentWordIndex + 1 + t)) = _
      have hlist : (TtsEvent.wordStart
            (s.currentWords.getD s.currentWordIndex "") s.currentWordIndex) ::
          (List.range k).map (fun t => TtsEvent.wordStart
            (s.currentWords.getD (s.currentWordIndex + 1 + t) "")
            (s.currentWordIndex + 1 + t)) =
          (List.range (k + 1)).map (fun t => TtsEvent.wordStart
            (s.currentWords.getD (s.currentWordIndex + t) "")
            (s.currentWordIndex + t)) := by
        rw [List.range_succ_eq_map, List.map_cons, List.map_map, List.cons.injEq]
        refine ⟨by simp, ?_⟩
        apply List.map_congr_left
        intro a _
        simp only [Function.comp_apply, Nat.succ_eq_add_one]
        rw [show s.currentWordIndex + 1 + a = s.currentWordIndex + (a + 1) by omega]
      rw [List.append_assoc, List.singleton_append, hlist]
    · show (tickN (tickStep s) k).currentWordIndex = _
      rw [ih2, hstep]
      show s.currentWordIndex + 1 + k = s.currentWordIndex + (k + 1)
      omega


/-- Word-timer behaviour of a freshly started session: with enough
firings every word is announced exactly once, in order; and a `stop()`
at any point clears the timer so that any number of later firings
changes nothing. -/
lemma wordRun_spec (s2 : TtsState) (ws : List String) (k j m : Nat)
    (hw : s2.currentWords = ws) (hi : s2.currentWordIndex = 0)
    (ht : s2.wordTimer = true) (hc : s2.hasWordCallback = true)
    (hp : s2.isPlaying = true) (hk : ws.length ≤ k) :
    (tickN s2 k).callbackLog = s2.callbackLog ++
      (List.range ws.length).map (fun i => TtsEvent.wordStart (ws.getD i "") i) ∧
    tickN (stopStep (tickN s2 j)) m = stopStep (tickN s2 j) := by
  constructor
  · obtain ⟨hlog, hidx, htimer, hcb, hwords⟩ := tickN_run ws.length s2 ht hc
      (by rw [hw, hi]; omega)
    have hk' : k = ws.length + (k - ws.length) := by omega
    rw [hk', tickN_add]
    rw [tickN_idle (k - ws.length) _ (by rw [hidx, hwords, hw, hi]; omega)]
    rw [hlog, hw, hi]
    simp only [Nat.zero_add]
  · have hplay : (tickN s2 j).isPlaying = true := by
      rw [tickN_isPlaying]
      exact hp
    have hstop2 : (stopStep (tickN s2 j)).wordTimer = false := by
      unfold stopStep
      rw [if_pos hplay]
    exact tickN_no_timer m _ hstop2

/-- C5: for a session started with a word callback, `k ≥ word count`
timer firings invoke `onWordStart` exactly once per word of
`text.split(' ')`, in original order with increasing indices `0, 1, …`,
and nothing beyond; and after `stop()` mid-utterance (after any `j`
firings) the pending timer is cleared, so `m` further firings change
nothing — zero further `onWordStart` calls. -/
theorem c5_theorem (s : TtsState) (text : String)
    (hInit : s.isInitialized = true) (hText : ¬ jsTrim text = "")
    (k j m : Nat) (hk : (jsSplit text ' ').length ≤ k) :
    (tickN (runActs s [Act.speak text true, Act.onstart]) k).callbackLog =
      (runActs s [Act.speak text true, Act.onstart]).callbackLog ++
        (List.range (jsSplit text ' ').length).map
          (fun i => TtsEvent.wordStart ((jsSplit text ' ').getD i "") i) ∧
    tickN (stopStep (tickN (runActs s [Act.speak text true, Act.onstart]) j)) m =
      stopStep (tickN (runActs s [Act.speak text true, Act.onstart]) j) := by
  have htext0 : ¬ text = "" := fun h => hText (by simp [h, jsTrim])
  have hspeak : (stepAct s (Act.speak text true)).1 =
      { stopStep s with
          currentWords := jsSplit text ' ',
          currentWordIndex := 0,
          hasWordCallback := true,
          currentUtterance := some text,
          engineQueue := (stopStep s).engineQueue ++ [text] } := by
    simp only [stepAct, speakStep]
    rw [if_neg (by simp [hInit]), if_neg (by simp [htext0, hText])]
  have hs2 : runActs s [Act.speak text true, Act.onstart] =
      onstartStep { stopStep s with
          currentWords := jsSplit text ' ',
          currentWordIndex := 0,
          hasWordCallback := true,
          currentUtterance := some text,
          engineQueue := (stopStep s).engineQueue ++ [text] } := by
    show runActs (stepAct s (Act.speak text true)).1 [Act.onstart] = _
    rw [hspeak]
    rfl
  exact wordRun_spec (runActs s [Act.speak text true, Act.onstart])
    (jsSplit text ' ') k j m
    (by rw [hs2]; rfl) (by rw [hs2]; rfl) (by rw [hs2]; rfl) (by rw [hs2]; rfl)
    (by rw [hs2]; rfl) hk

/-- C5, witness: "hello world" with two firings announces ("hello", 0)
then ("world", 1); stopping after one firing freezes the session against
three further firings. -/
theorem c5_witness :
    (tickN (runActs (runActs initialState [Act.initDone])
        [Act.speak "hello world" true, Act.onstart]) 2).callbackLog =
      (runActs (runActs initialState [Act.initDone])
        [Act.speak "hello world" true, Act.onstart]).callbackLog ++
        (List.range (jsSplit "hello world" ' ').length).map
          (fun i => TtsEvent.wordStart ((jsSplit "hello world" ' ').getD i "") i) ∧
    tickN (stopStep (tickN (runActs (runActs initialState [Act.initDone])
        [Act.speak "hello world" true, Act.onstart]) 1)) 3 =
      stopStep (tickN (runActs (runActs initialState [Act.initDone])
        [Act.speak "hello world" true, Act.onstart]) 1) :=
  c5_theorem (runActs initialState [Act.initDone]) "hello world"
    (by decide) (by decide) 2 1 3 (by decide)

end Tts
